import Mathlib

/-!
Verification of the ELF header parser in `src/parser.rs` of the `relf`
repository. The parser decodes the first 64 bytes of an ELF file into a
structured `ElfHeader` record (whose first 16 bytes form the `EIdent`
identification record) or a typed `ElfParseError`, and renders the record
as human-readable text.

The embedding below is a direct transcription of `src/parser.rs`:
byte buffers are `List Nat` (each entry one `u8`), fallible decoding is
`Except ElfParseError`, the Rust `Display` implementations become
`display` functions returning `String`, and `u16::from_le_bytes` /
`u32::from_le_bytes` / `u64::from_le_bytes` become explicit little-endian
arithmetic on the bytes.
-/

/-- Error taxonomy of the parser (`ElfParseError`, parser.rs lines 3–15).
The Rust `IoError` variant carries a `std::io::Error` payload coming from
the out-of-scope file-reading collaborator; the payload is not modelled
because neither decoder ever produces this variant. -/
inductive ElfParseError where
  | InvalidSize
  | InvalidMagic
  | InvalidClass
  | InvalidData
  | InvalidVersion
  | InvalidOsAbi
  | InvalidType
  | InvalidMachine
  | ReservedOsAbi
  | IoError
  deriving DecidableEq, Repr

/-- ELF class tag (`IdentClass`, parser.rs lines 36–40). -/
inductive IdentClass where
  | ELFCLASS32
  | ELFCLASS64
  deriving DecidableEq, Repr

/-- Rendering of `IdentClass` (parser.rs lines 42–49). -/
def IdentClass.display : IdentClass → String
  | .ELFCLASS32 => "32-bit objects"
  | .ELFCLASS64 => "64-bit objects"

/-- Data-encoding tag (`IdentData`, parser.rs lines 51–55). -/
inductive IdentData where
  | ELFDATA2LSB
  | ELFDATA2MSB
  deriving DecidableEq, Repr

/-- Rendering of `IdentData` (parser.rs lines 57–64). -/
def IdentData.display : IdentData → String
  | .ELFDATA2LSB => "Little-endian"
  | .ELFDATA2MSB => "Big-endian"

/-- Identification version tag (`IdentVersion`, parser.rs lines 66–70). -/
inductive IdentVersion where
  | EvNone
  | EvCurrent
  deriving DecidableEq, Repr

/-- Rendering of `IdentVersion` (parser.rs lines 72–79). -/
def IdentVersion.display : IdentVersion → String
  | .EvNone => "Invalid version"
  | .EvCurrent => "Current version"

/-- OS/ABI tag (`IdentOSABI`, parser.rs lines 81–101). -/
inductive IdentOSABI where
  | NONE
  | HPUX
  | NETBSD
  | GNU
  | SOLARIS
  | AIX
  | IRIX
  | FREEBSD
  | TRU64
  | MODESTO
  | OPENBSD
  | OPENVMS
  | NSK
  | AROS
  | FENIXOS
  | CLOUDABI
  | OPENVOS
  | STANDALONE
  deriving DecidableEq, Repr

/-- Rendering of `IdentOSABI` (parser.rs lines 103–126). -/
def IdentOSABI.display : IdentOSABI → String
  | .NONE => "No extensions or unspecified"
  | .HPUX => "HP-UX"
  | .NETBSD => "NetBSD"
  | .GNU => "GNU"
  | .SOLARIS => "Solaris"
  | .AIX => "AIX"
  | .IRIX => "IRIX"
  | .FREEBSD => "FreeBSD"
  | .TRU64 => "Tru64"
  | .MODESTO => "Novell Modesto"
  | .OPENBSD => "OpenBSD"
  | .OPENVMS => "OpenVMS"
  | .NSK => "NonStop Kernel"
  | .AROS => "AROS"
  | .FENIXOS => "FenixOS"
  | .CLOUDABI => "CloudABI"
  | .OPENVOS => "Stratus Technologies OpenVOS"
  | .STANDALONE => "Standalone (embedded) application"

/-- ELF identification record (`EIdent`, parser.rs lines 128–136).
`magic` is the copied 4-byte slice `bytes[0..4]`. -/
structure EIdent where
  magic : List Nat
  «class» : IdentClass
  data : IdentData
  version : IdentVersion
  os_abi : IdentOSABI
  abi_version : Nat
  deriving DecidableEq, Repr

/-- Decoding of the class byte `bytes[4]` (parser.rs lines 152–156). -/
def decodeClass : Nat → Except ElfParseError IdentClass
  | 1 => .ok .ELFCLASS32
  | 2 => .ok .ELFCLASS64
  | _ => .error .InvalidClass

/-- Decoding of the data-encoding byte `bytes[5]` (parser.rs lines 158–162). -/
def decodeData : Nat → Except ElfParseError IdentData
  | 1 => .ok .ELFDATA2LSB
  | 2 => .ok .ELFDATA2MSB
  | _ => .error .InvalidData

/-- Decoding of the ident-version byte `bytes[6]` (parser.rs lines 164–168). -/
def decodeIdentVersion : Nat → Except ElfParseError IdentVersion
  | 0 => .ok .EvNone
  | 1 => .ok .EvCurrent
  | _ => .error .InvalidVersion

/-- Decoding of the OS/ABI byte `bytes[7]` (parser.rs lines 170–191).
The Rust match is over a `u8`, so its arms `4..=5 | 19..=254 =>
Err(ReservedOsAbi)` together with the literal arms cover the whole byte
range; the final catch-all below is exactly the `19..=254` arm on the
byte domain `0–255`. -/
def decodeOsAbi : Nat → Except ElfParseError IdentOSABI
  | 0 => .ok .NONE
  | 1 => .ok .HPUX
  | 2 => .ok .NETBSD
  | 3 => .ok .GNU
  | 4 => .error .ReservedOsAbi
  | 5 => .error .ReservedOsAbi
  | 6 => .ok .SOLARIS
  | 7 => .ok .AIX
  | 8 => .ok .IRIX
  | 9 => .ok .FREEBSD
  | 10 => .ok .TRU64
  | 11 => .ok .MODESTO
  | 12 => .ok .OPENBSD
  | 13 => .ok .OPENVMS
  | 14 => .ok .NSK
  | 15 => .ok .AROS
  | 16 => .ok .FENIXOS
  | 17 => .ok .CLOUDABI
  | 18 => .ok .OPENVOS
  | 255 => .ok .STANDALONE
  | _ => .error .ReservedOsAbi

/-- Transcription of `EIdent::from_bytes` (parser.rs lines 139–203):
length check, magic check on `bytes[0..4]`, then the class, data,
version and OS/ABI byte decodes in order, short-circuiting on the first
error; `abi_version` is byte 8 copied verbatim. -/
def EIdent.from_bytes (bytes : List Nat) : Except ElfParseError EIdent :=
  if bytes.length < 16 then .error .InvalidSize
  else if bytes.take 4 ≠ [0x7f, 0x45, 0x4c, 0x46] then .error .InvalidMagic
  else
    match decodeClass (bytes.getD 4 0) with
    | .error e => .error e
    | .ok c =>
      match decodeData (bytes.getD 5 0) with
      | .error e => .error e
      | .ok d =>
        match decodeIdentVersion (bytes.getD 6 0) with
        | .error e => .error e
        | .ok v =>
          match decodeOsAbi (bytes.getD 7 0) with
          | .error e => .error e
          | .ok o =>
            .ok { magic := bytes.take 4, «class» := c, data := d,
                  version := v, os_abi := o, abi_version := bytes.getD 8 0 }

/-- Rendering of one byte the way Rust `{:x?}` prints a `u8`:
lowercase hexadecimal with no zero padding. -/
def byteHex (b : Nat) : String :=
  String.mk (Nat.toDigits 16 b)

/-- Rendering of the magic array the way Rust `{:x?}` prints `[u8; 4]`. -/
def magicHex (m : List Nat) : String :=
  "[" ++ String.intercalate ", " (m.map byteHex) ++ "]"

/-- Rendering of `EIdent` (parser.rs lines 206–216): six `writeln!`
lines, then a final `write!` with no trailing newline. -/
def EIdent.display (e : EIdent) : String :=
  "ELF Identification:\n" ++
  ("  Magic: " ++ magicHex e.magic ++ "\n") ++
  ("  Class: " ++ e.class.display ++ "\n") ++
  ("  Data: " ++ e.data.display ++ "\n") ++
  ("  Version: " ++ e.version.display ++ "\n") ++
  ("  OS/ABI: " ++ e.os_abi.display ++ "\n") ++
  ("  ABI Version: " ++ Nat.repr e.abi_version)

/-- Object-type tag (`ElfType`, parser.rs lines 218–227). -/
inductive ElfType where
  | EtNone
  | EtRel
  | EtExec
  | EtDyn
  | EtCore
  | EtLoProc
  | EtHiProc
  deriving DecidableEq, Repr

/-- Rendering of `ElfType` (parser.rs lines 229–241). -/
def ElfType.display : ElfType → String
  | .EtNone => "No file type"
  | .EtRel => "Relocatable file"
  | .EtExec => "Executable file"
  | .EtDyn => "Shared object file"
  | .EtCore => "Core file"
  | .EtLoProc => "Processor-specific (low)"
  | .EtHiProc => "Processor-specific (high)"

/-- Machine tag (`ElfMachine`, parser.rs lines 243–267). -/
inductive ElfMachine where
  | EmNone
  | EmM32
  | EmSparc
  | Em386
  | Em68k
  | Em88k
  | Em860
  | EmMips
  | EmS370
  | EmMipsRs3Le
  | EmParisc
  | EmVpp500
  | EmSparc32Plus
  | Em960
  | EmPpc
  | EmPpc64
  | EmS390
  | EmX8664
  | EmAarch64
  | EmRiscv
  | EmLoProc
  | EmHiProc
  deriving DecidableEq, Repr

/-- Rendering of `ElfMachine` (parser.rs lines 269–296). -/
def ElfMachine.display : ElfMachine → String
  | .EmNone => "No machine"
  | .EmM32 => "AT&T WE 32100"
  | .EmSparc => "SPARC"
  | .Em386 => "Intel 80386"
  | .Em68k => "Motorola 68000"
  | .Em88k => "Motorola 88000"
  | .Em860 => "Intel 80860"
  | .EmMips => "MIPS I Architecture"
  | .EmS370 => "IBM System/370 Processor"
  | .EmMipsRs3Le => "MIPS RS3000 Little-endian"
  | .EmParisc => "Hewlett-Packard PA-RISC"
  | .EmVpp500 => "Fujitsu VPP500"
  | .EmSparc32Plus => "Enhanced instruction set SPARC"
  | .Em960 => "Intel 80960"
  | .EmPpc => "PowerPC"
  | .EmPpc64 => "PowerPC64"
  | .EmS390 => "IBM System/390 Processor"
  | .EmX8664 => "AMD x86-64 architecture"
  | .EmAarch64 => "ARM AARCH64"
  | .EmRiscv => "RISC-V"
  | .EmLoProc => "Processor-specific (low)"
  | .EmHiProc => "Processor-specific (high)"

/-- Header version tag (`ElfVersion`, parser.rs lines 298–302). -/
inductive ElfVersion where
  | EvNone
  | EvCurrent
  deriving DecidableEq, Repr

/-- Rendering of `ElfVersion` (parser.rs lines 304–311). -/
def ElfVersion.display : ElfVersion → String
  | .EvNone => "Invalid version"
  | .EvCurrent => "Current version"

/-- Little-endian assembly of two bytes, as `u16::from_le_bytes`. -/
def u16_le (b0 b1 : Nat) : Nat :=
  b0 + b1 * 256

/-- Little-endian assembly of four bytes, as `u32::from_le_bytes`. -/
def u32_le (b0 b1 b2 b3 : Nat) : Nat :=
  b0 + b1 * 256 + b2 * 256 ^ 2 + b3 * 256 ^ 3

/-- Little-endian assembly of eight bytes, as `u64::from_le_bytes`. -/
def u64_le (b0 b1 b2 b3 b4 b5 b6 b7 : Nat) : Nat :=
  b0 + b1 * 256 + b2 * 256 ^ 2 + b3 * 256 ^ 3 +
    b4 * 256 ^ 4 + b5 * 256 ^ 5 + b6 * 256 ^ 6 + b7 * 256 ^ 7

/-- Decoding of the object-type value `u16::from_le_bytes([bytes[16],
bytes[17]])` (parser.rs lines 339–348). -/
def decodeType : Nat → Except ElfParseError ElfType
  | 0 => .ok .EtNone
  | 1 => .ok .EtRel
  | 2 => .ok .EtExec
  | 3 => .ok .EtDyn
  | 4 => .ok .EtCore
  | 0xff00 => .ok .EtLoProc
  | 0xffff => .ok .EtHiProc
  | _ => .error .InvalidType

/-- Decoding of the machine value `u16::from_le_bytes([bytes[18],
bytes[19]])` (parser.rs lines 350–378). The `eprintln!` diagnostic on the
unknown-machine path is a side effect outside the returned value and is
not modelled. -/
def decodeMachine : Nat → Except ElfParseError ElfMachine
  | 0 => .ok .EmNone
  | 1 => .ok .EmM32
  | 2 => .ok .EmSparc
  | 3 => .ok .Em386
  | 4 => .ok .Em68k
  | 5 => .ok .Em88k
  | 7 => .ok .Em860
  | 8 => .ok .EmMips
  | 9 => .ok .EmS370
  | 10 => .ok .EmMipsRs3Le
  | 15 => .ok .EmParisc
  | 17 => .ok .EmVpp500
  | 18 => .ok .EmSparc32Plus
  | 19 => .ok .Em960
  | 20 => .ok .EmPpc
  | 21 => .ok .EmPpc64
  | 22 => .ok .EmS390
  | 62 => .ok .EmX8664
  | 183 => .ok .EmAarch64
  | 243 => .ok .EmRiscv
  | 0xff00 => .ok .EmLoProc
  | 0xffff => .ok .EmHiProc
  | _ => .error .InvalidMachine

/-- Decoding of the header version value `u32::from_le_bytes(bytes[20..24])`
(parser.rs lines 380–384). -/
def decodeElfVersion : Nat → Except ElfParseError ElfVersion
  | 0 => .ok .EvNone
  | 1 => .ok .EvCurrent
  | _ => .error .InvalidVersion

/-- ELF header record (`ElfHeader`, parser.rs lines 313–329). -/
structure ElfHeader where
  ident : EIdent
  e_type : ElfType
  machine : ElfMachine
  version : ElfVersion
  entry : Nat
  phoff : Nat
  shoff : Nat
  flags : Nat
  ehsize : Nat
  phentsize : Nat
  phnum : Nat
  shentsize : Nat
  shnum : Nat
  shstrndx : Nat
  deriving DecidableEq, Repr

/-- Transcription of `ElfHeader::from_bytes` (parser.rs lines 332–422):
length check, delegation of `bytes[0..16]` to `EIdent::from_bytes` with
errors propagated unchanged by `?`, the type / machine / version decodes
in order, then the raw little-endian extraction of the remaining fields. -/
def ElfHeader.from_bytes (bytes : List Nat) : Except ElfParseError ElfHeader :=
  if bytes.length < 64 then .error .InvalidSize
  else
    match EIdent.from_bytes (bytes.take 16) with
    | .error e => .error e
    | .ok ident =>
      match decodeType (u16_le (bytes.getD 16 0) (bytes.getD 17 0)) with
      | .error e => .error e
      | .ok t =>
        match decodeMachine (u16_le (bytes.getD 18 0) (bytes.getD 19 0)) with
        | .error e => .error e
        | .ok m =>
          match decodeElfVersion (u32_le (bytes.getD 20 0) (bytes.getD 21 0)
              (bytes.getD 22 0) (bytes.getD 23 0)) with
          | .error e => .error e
          | .ok v =>
            .ok { ident := ident, e_type := t, machine := m, version := v,
                  entry := u64_le (bytes.getD 24 0) (bytes.getD 25 0)
                    (bytes.getD 26 0) (bytes.getD 27 0) (bytes.getD 28 0)
                    (bytes.getD 29 0) (bytes.getD 30 0) (bytes.getD 31 0),
                  phoff := u64_le (bytes.getD 32 0) (bytes.getD 33 0)
                    (bytes.getD 34 0) (bytes.getD 35 0) (bytes.getD 36 0)
                    (bytes.getD 37 0) (bytes.getD 38 0) (bytes.getD 39 0),
                  shoff := u64_le (bytes.getD 40 0) (bytes.getD 41 0)
                    (bytes.getD 42 0) (bytes.getD 43 0) (bytes.getD 44 0)
                    (bytes.getD 45 0) (bytes.getD 46 0) (bytes.getD 47 0),
                  flags := u32_le (bytes.getD 48 0) (bytes.getD 49 0)
                    (bytes.getD 50 0) (bytes.getD 51 0),
                  ehsize := u16_le (bytes.getD 52 0) (bytes.getD 53 0),
                  phentsize := u16_le (bytes.getD 54 0) (bytes.getD 55 0),
                  phnum := u16_le (bytes.getD 56 0) (bytes.getD 57 0),
                  shentsize := u16_le (bytes.getD 58 0) (bytes.getD 59 0),
                  shnum := u16_le (bytes.getD 60 0) (bytes.getD 61 0),
                  shstrndx := u16_le (bytes.getD 62 0) (bytes.getD 63 0) }

/-- Rendering of one Nat the way Rust `0x{:x}` prints an unsigned value:
a `0x` prefix followed by lowercase hexadecimal digits. -/
def hex0x (n : Nat) : String :=
  "0x" ++ String.mk (Nat.toDigits 16 n)

/-- Rendering of `ElfHeader` (parser.rs lines 425–442): the embedded
identification block, then one line per header field, the last line
written with `write!` and hence no trailing newline. -/
def ElfHeader.display (h : ElfHeader) : String :=
  h.ident.display ++
  ("\nELF Type: " ++ h.e_type.display ++ "\n") ++
  ("Machine: " ++ h.machine.display ++ "\n") ++
  ("Version: " ++ h.version.display ++ "\n") ++
  ("Entry point address: " ++ hex0x h.entry ++ "\n") ++
  ("Start of program headers: " ++ Nat.repr h.phoff ++ " (bytes into file)\n") ++
  ("Start of section headers: " ++ Nat.repr h.shoff ++ " (bytes into file)\n") ++
  ("Flags: " ++ hex0x h.flags ++ "\n") ++
  ("Size of this header: " ++ Nat.repr h.ehsize ++ " (bytes)\n") ++
  ("Size of program headers: " ++ Nat.repr h.phentsize ++ " (bytes)\n") ++
  ("Number of program headers: " ++ Nat.repr h.phnum ++ "\n") ++
  ("Size of section headers: " ++ Nat.repr h.shentsize ++ " (bytes)\n") ++
  ("Number of section headers: " ++ Nat.repr h.shnum ++ "\n") ++
  ("Section header string table index: " ++ Nat.repr h.shstrndx)

/-! ## Concrete buffers used by witnesses -/

/-- The end-to-end example buffer of the specification: a minimal valid
64-bit little-endian x86-64 executable header. -/
def exampleBuf : List Nat :=
  [0x7f, 0x45, 0x4c, 0x46, 2, 1, 1, 0, 0, 0, 0, 0, 0, 0, 0, 0,
   2, 0, 62, 0, 1, 0, 0, 0,
   0x00, 0x10, 0x40, 0, 0, 0, 0, 0,
   64, 0, 0, 0, 0, 0, 0, 0,
   0, 0, 0, 0, 0, 0, 0, 0,
   0, 0, 0, 0, 64, 0, 56, 0,
   1, 0, 64, 0, 0, 0, 0, 0]

/-- The header record that `ElfHeader.from_bytes` produces on `exampleBuf`. -/
def exampleHeader : ElfHeader :=
  { ident := { magic := [0x7f, 0x45, 0x4c, 0x46], «class» := .ELFCLASS64,
               data := .ELFDATA2LSB, version := .EvCurrent,
               os_abi := .NONE, abi_version := 0 },
    e_type := .EtExec, machine := .EmX8664, version := .EvCurrent,
    entry := 0x401000, phoff := 64, shoff := 0, flags := 0, ehsize := 64,
    phentsize := 56, phnum := 1, shentsize := 64, shnum := 0, shstrndx := 0 }

/-- Splitting of a rendered report into its lines at newline characters,
by structural recursion over the character list (so that concrete
instances evaluate inside the kernel). -/
def splitLines (s : String) : List String :=
  (s.data.foldr
    (fun c acc =>
      if c = '\n' then [] :: acc
      else (c :: acc.headD []) :: acc.tail)
    [[]]).map (fun cs => String.mk cs)

/-- A 64-byte buffer whose data-encoding byte (byte 5) is 2, announcing
big-endian data, while its entry-point bytes 24–27 are
`[0x78, 0x56, 0x34, 0x12]`: the decoder still reads them little-endian. -/
def bigEndianTagBuf : List Nat :=
  [0x7f, 0x45, 0x4c, 0x46, 2, 2, 1, 0, 0, 0, 0, 0, 0, 0, 0, 0,
   2, 0, 62, 0, 1, 0, 0, 0,
   0x78, 0x56, 0x34, 0x12, 0, 0, 0, 0,
   64, 0, 0, 0, 0, 0, 0, 0,
   0, 0, 0, 0, 0, 0, 0, 0,
   0, 0, 0, 0, 64, 0, 56, 0,
   1, 0, 64, 0, 0, 0, 0, 0]

/-- The header record that `ElfHeader.from_bytes` produces on
`bigEndianTagBuf`. -/
def bigEndianHeader : ElfHeader :=
  { ident := { magic := [0x7f, 0x45, 0x4c, 0x46], «class» := .ELFCLASS64,
               data := .ELFDATA2MSB, version := .EvCurrent,
               os_abi := .NONE, abi_version := 0 },
    e_type := .EtExec, machine := .EmX8664, version := .EvCurrent,
    entry := 0x12345678, phoff := 64, shoff := 0, flags := 0, ehsize := 64,
    phentsize := 56, phnum := 1, shentsize := 64, shnum := 0, shstrndx := 0 }

/-! ## Helper lemmas -/

/-- Propagation of an identification error through the header decoder. -/
lemma ElfHeader.from_bytes_ident_error {bytes : List Nat} {e : ElfParseError}
    (hlen : 64 ≤ bytes.length)
    (hid : EIdent.from_bytes (bytes.take 16) = .error e) :
    ElfHeader.from_bytes bytes = .error e := by
  unfold ElfHeader.from_bytes
  rw [if_neg (by omega), hid]

/-- The magic check fails exactly on a wrong leading 4-byte slice. -/
lemma EIdent.from_bytes_invalid_magic {bytes : List Nat}
    (hlen : 16 ≤ bytes.length)
    (hmagic : bytes.take 4 ≠ [0x7f, 0x45, 0x4c, 0x46]) :
    EIdent.from_bytes bytes = .error .InvalidMagic := by
  unfold EIdent.from_bytes
  rw [if_neg (by omega), if_pos hmagic]

/-- Class decoding fails only with `InvalidClass`. -/
lemma decodeClass_err {b : Nat} {e : ElfParseError}
    (h : decodeClass b = .error e) : e = .InvalidClass := by
  unfold decodeClass at h
  split at h <;> simp_all

/-- Data decoding fails only with `InvalidData`. -/
lemma decodeData_err {b : Nat} {e : ElfParseError}
    (h : decodeData b = .error e) : e = .InvalidData := by
  unfold decodeData at h
  split at h <;> simp_all

/-- Ident-version decoding fails only with `InvalidVersion`. -/
lemma decodeIdentVersion_err {b : Nat} {e : ElfParseError}
    (h : decodeIdentVersion b = .error e) : e = .InvalidVersion := by
  unfold decodeIdentVersion at h
  split at h <;> simp_all

/-- OS/ABI decoding fails only with `ReservedOsAbi`. -/
lemma decodeOsAbi_err {b : Nat} {e : ElfParseError}
    (h : decodeOsAbi b = .error e) : e = .ReservedOsAbi := by
  unfold decodeOsAbi at h
  split at h <;> simp_all

/-- A class byte outside {1,2} yields `InvalidClass`. -/
lemma decodeClass_not12 {b : Nat} (h1 : b ≠ 1) (h2 : b ≠ 2) :
    decodeClass b = .error .InvalidClass := by
  unfold decodeClass
  split <;> first | rfl | omega

/-- Bytes 4, 5 and 19–254 are the reserved OS/ABI values. -/
lemma decodeOsAbi_reserved {b : Nat}
    (h : b = 4 ∨ b = 5 ∨ (19 ≤ b ∧ b ≤ 254)) :
    decodeOsAbi b = .error .ReservedOsAbi := by
  unfold decodeOsAbi
  split <;> first | rfl | omega

/-- The wire values accepted by the object-type decode (the discriminants
of `ElfType`, parser.rs lines 218–227). -/
def typeCodes : List Nat :=
  [0, 1, 2, 3, 4, 0xff00, 0xffff]

/-- The wire values accepted by the machine decode (the discriminants of
`ElfMachine`, parser.rs lines 243–267). -/
def machineCodes : List Nat :=
  [0, 1, 2, 3, 4, 5, 7, 8, 9, 10, 15, 17, 18, 19, 20, 21, 22,
   62, 183, 243, 0xff00, 0xffff]

/-- A type value outside the `ElfType` enumeration yields `InvalidType`. -/
lemma decodeType_not_mem {v : Nat} (h : v ∉ typeCodes) :
    decodeType v = .error .InvalidType := by
  simp only [typeCodes, List.mem_cons, List.not_mem_nil, or_false] at h
  push_neg at h
  unfold decodeType
  split <;> first | rfl | omega

/-- A machine value outside the `ElfMachine` enumeration yields
`InvalidMachine`. -/
lemma decodeMachine_not_mem {v : Nat} (h : v ∉ machineCodes) :
    decodeMachine v = .error .InvalidMachine := by
  simp only [machineCodes, List.mem_cons, List.not_mem_nil, or_false] at h
  push_neg at h
  unfold decodeMachine
  split <;> first | rfl | omega

/-- The identification decoder never produces `InvalidOsAbi`: every byte
value falls into a named, reserved or standalone arm of the OS/ABI match. -/
lemma EIdent.from_bytes_ne_invalidOsAbi (bytes : List Nat) :
    EIdent.from_bytes bytes ≠ .error .InvalidOsAbi := by
  unfold EIdent.from_bytes
  split
  · simp
  split
  · simp
  cases hc : decodeClass (bytes.getD 4 0) with
  | error ec => have := decodeClass_err hc; subst this; simp
  | ok c =>
    cases hd : decodeData (bytes.getD 5 0) with
    | error ed => have := decodeData_err hd; subst this; simp
    | ok d =>
      cases hv : decodeIdentVersion (bytes.getD 6 0) with
      | error ev => have := decodeIdentVersion_err hv; subst this; simp
      | ok v =>
        cases ho : decodeOsAbi (bytes.getD 7 0) with
        | error eo => have := decodeOsAbi_err ho; subst this; simp
        | ok o => simp

/-- When the length and magic checks pass and the class, data and version
bytes are valid, the identification decode reduces to the OS/ABI decode:
an OS/ABI error becomes the result of `EIdent.from_bytes`. -/
lemma EIdent.from_bytes_osAbi_error {bytes : List Nat} {e : ElfParseError}
    (hlen : 16 ≤ bytes.length)
    (hmagic : bytes.take 4 = [0x7f, 0x45, 0x4c, 0x46])
    (h4 : bytes.getD 4 0 = 1 ∨ bytes.getD 4 0 = 2)
    (h5 : bytes.getD 5 0 = 1 ∨ bytes.getD 5 0 = 2)
    (h6 : bytes.getD 6 0 = 0 ∨ bytes.getD 6 0 = 1)
    (ho : decodeOsAbi (bytes.getD 7 0) = .error e) :
    EIdent.from_bytes bytes = .error e := by
  unfold EIdent.from_bytes
  rw [if_neg (by omega), if_neg (by simp [hmagic])]
  rcases h4 with h4 | h4 <;> rcases h5 with h5 | h5 <;> rcases h6 with h6 | h6 <;>
    rw [h4, h5, h6] <;>
    simp only [decodeClass, decodeData, decodeIdentVersion, ho]

/-- When the length and magic checks pass and the class byte is outside
{1,2}, the identification decode stops with `InvalidClass`. -/
lemma EIdent.from_bytes_bad_class {bytes : List Nat}
    (hlen : 16 ≤ bytes.length)
    (hmagic : bytes.take 4 = [0x7f, 0x45, 0x4c, 0x46])
    (h1 : bytes.getD 4 0 ≠ 1) (h2 : bytes.getD 4 0 ≠ 2) :
    EIdent.from_bytes bytes = .error .InvalidClass := by
  unfold EIdent.from_bytes
  rw [if_neg (by omega), if_neg (by simp [hmagic]), decodeClass_not12 h1 h2]

/-- Inversion of a successful header decode: the identification, type,
machine and version components decode to the record's fields, and every
raw numeric field is the little-endian assembly of its source bytes. -/
lemma ElfHeader.from_bytes_ok_inv {bytes : List Nat} {h : ElfHeader}
    (hok : ElfHeader.from_bytes bytes = Except.ok h) :
    EIdent.from_bytes (bytes.take 16) = .ok h.ident ∧
    decodeType (u16_le (bytes.getD 16 0) (bytes.getD 17 0)) = .ok h.e_type ∧
    decodeMachine (u16_le (bytes.getD 18 0) (bytes.getD 19 0)) = .ok h.machine ∧
    decodeElfVersion (u32_le (bytes.getD 20 0) (bytes.getD 21 0)
      (bytes.getD 22 0) (bytes.getD 23 0)) = .ok h.version ∧
    h.entry = u64_le (bytes.getD 24 0) (bytes.getD 25 0) (bytes.getD 26 0)
      (bytes.getD 27 0) (bytes.getD 28 0) (bytes.getD 29 0) (bytes.getD 30 0)
      (bytes.getD 31 0) ∧
    h.phoff = u64_le (bytes.getD 32 0) (bytes.getD 33 0) (bytes.getD 34 0)
      (bytes.getD 35 0) (bytes.getD 36 0) (bytes.getD 37 0) (bytes.getD 38 0)
      (bytes.getD 39 0) ∧
    h.shoff = u64_le (bytes.getD 40 0) (bytes.getD 41 0) (bytes.getD 42 0)
      (bytes.getD 43 0) (bytes.getD 44 0) (bytes.getD 45 0) (bytes.getD 46 0)
      (bytes.getD 47 0) ∧
    h.flags = u32_le (bytes.getD 48 0) (bytes.getD 49 0) (bytes.getD 50 0)
      (bytes.getD 51 0) ∧
    h.ehsize = u16_le (bytes.getD 52 0) (bytes.getD 53 0) ∧
    h.phentsize = u16_le (bytes.getD 54 0) (bytes.getD 55 0) ∧
    h.phnum = u16_le (bytes.getD 56 0) (bytes.getD 57 0) ∧
    h.shentsize = u16_le (bytes.getD 58 0) (bytes.getD 59 0) ∧
    h.shnum = u16_le (bytes.getD 60 0) (bytes.getD 61 0) ∧
    h.shstrndx = u16_le (bytes.getD 62 0) (bytes.getD 63 0) := by
  unfold ElfHeader.from_bytes at hok
  split at hok
  · exact absurd hok (by simp)
  cases hi : EIdent.from_bytes (bytes.take 16) with
  | error ei => rw [hi] at hok; simp at hok
  | ok i =>
    rw [hi] at hok
    cases ht : decodeType (u16_le (bytes.getD 16 0) (bytes.getD 17 0)) with
    | error et => rw [ht] at hok; simp at hok
    | ok t =>
      rw [ht] at hok
      cases hm : decodeMachine (u16_le (bytes.getD 18 0) (bytes.getD 19 0)) with
      | error em => rw [hm] at hok; simp at hok
      | ok m =>
        rw [hm] at hok
        cases hv : decodeElfVersion (u32_le (bytes.getD 20 0) (bytes.getD 21 0)
            (bytes.getD 22 0) (bytes.getD 23 0)) with
        | error ev => rw [hv] at hok; simp at hok
        | ok v =>
          rw [hv] at hok
          simp only [Except.ok.injEq] at hok
          subst hok
          exact ⟨rfl, rfl, rfl, rfl, rfl, rfl, rfl, rfl, rfl, rfl, rfl, rfl, rfl, rfl⟩

/-! ## Claim theorems -/

/-- C1: Size precondition — for every input buffer shorter than 64 bytes,
`ElfHeader.from_bytes` returns the error `InvalidSize`; likewise, for
every input buffer shorter than 16 bytes, `EIdent.from_bytes` returns
`InvalidSize`. -/
theorem size_precondition (bytes : List Nat) :
    (bytes.length < 64 → ElfHeader.from_bytes bytes = .error .InvalidSize) ∧
    (bytes.length < 16 → EIdent.from_bytes bytes = .error .InvalidSize) := by
  constructor
  · intro h
    unfold ElfHeader.from_bytes
    rw [if_pos h]
  · intro h
    unfold EIdent.from_bytes
    rw [if_pos h]

/-- Witness for C1: a 63-byte buffer is rejected by the header decoder and
a 15-byte buffer by the identification decoder, both with `InvalidSize`. -/
theorem size_precondition_witness :
    ElfHeader.from_bytes (List.replicate 63 0) = .error .InvalidSize ∧
    EIdent.from_bytes (List.replicate 15 0) = .error .InvalidSize :=
  ⟨(size_precondition (List.replicate 63 0)).1 (by simp),
   (size_precondition (List.replicate 15 0)).2 (by simp)⟩

/-- C2: Error transparency — for every buffer of at least 64 bytes on
which the identification decode of bytes 0–15 fails with some error kind,
`ElfHeader.from_bytes` returns exactly that error kind, unchanged. -/
theorem error_transparency (bytes : List Nat) (e : ElfParseError)
    (hlen : 64 ≤ bytes.length)
    (hid : EIdent.from_bytes (bytes.take 16) = .error e) :
    ElfHeader.from_bytes bytes = .error e :=
  ElfHeader.from_bytes_ident_error hlen hid

/-- Witness for C2: 64 zero bytes fail identification with `InvalidMagic`,
and the header decoder reports exactly `InvalidMagic`. -/
theorem error_transparency_witness :
    ElfHeader.from_bytes (List.replicate 64 0) = .error .InvalidMagic :=
  error_transparency (List.replicate 64 0) .InvalidMagic (by simp) (by rfl)

/-- C3: Magic check — for every buffer of sufficient length whose first 4
bytes differ from `7F 45 4C 46`, `EIdent.from_bytes` (and hence
`ElfHeader.from_bytes`) returns `InvalidMagic`, whatever the remaining
bytes hold. -/
theorem magic_check (bytes : List Nat) :
    (16 ≤ bytes.length → bytes.take 4 ≠ [0x7f, 0x45, 0x4c, 0x46] →
      EIdent.from_bytes bytes = .error .InvalidMagic) ∧
    (64 ≤ bytes.length → bytes.take 4 ≠ [0x7f, 0x45, 0x4c, 0x46] →
      ElfHeader.from_bytes bytes = .error .InvalidMagic) := by
  constructor
  · intro hlen hmagic
    exact EIdent.from_bytes_invalid_magic hlen hmagic
  · intro hlen hmagic
    refine ElfHeader.from_bytes_ident_error hlen ?_
    refine EIdent.from_bytes_invalid_magic ?_ ?_
    · simp [List.length_take]
      omega
    · rw [List.take_take]
      simpa using hmagic

/-- Witness for C3: a 64-byte buffer starting with `7F 45 4C 00` is
rejected with `InvalidMagic` by both decoders. -/
theorem magic_check_witness :
    EIdent.from_bytes (0x7f :: 0x45 :: 0x4c :: 0x00 :: List.replicate 60 0) =
      .error .InvalidMagic ∧
    ElfHeader.from_bytes (0x7f :: 0x45 :: 0x4c :: 0x00 :: List.replicate 60 0) =
      .error .InvalidMagic :=
  ⟨(magic_check _).1 (by simp) (by simp),
   (magic_check _).2 (by simp) (by simp)⟩

/-- C4: OS/ABI decoding is total over the byte range — once the earlier
checks pass, an OS/ABI byte in {4,5} or [19,254] makes
`EIdent.from_bytes` return `ReservedOsAbi`; byte 255 decodes to the tag
labelled "Standalone (embedded) application" and byte 3 to the tag
labelled "GNU"; and no buffer whatsoever makes the decoder return
`InvalidOsAbi`. -/
theorem os_abi_decoding :
    (∀ bytes : List Nat, 16 ≤ bytes.length →
      bytes.take 4 = [0x7f, 0x45, 0x4c, 0x46] →
      (bytes.getD 4 0 = 1 ∨ bytes.getD 4 0 = 2) →
      (bytes.getD 5 0 = 1 ∨ bytes.getD 5 0 = 2) →
      (bytes.getD 6 0 = 0 ∨ bytes.getD 6 0 = 1) →
      (bytes.getD 7 0 = 4 ∨ bytes.getD 7 0 = 5 ∨
        (19 ≤ bytes.getD 7 0 ∧ bytes.getD 7 0 ≤ 254)) →
      EIdent.from_bytes bytes = .error .ReservedOsAbi) ∧
    (decodeOsAbi 255 = .ok .STANDALONE ∧
      IdentOSABI.display .STANDALONE = "Standalone (embedded) application") ∧
    (decodeOsAbi 3 = .ok .GNU ∧ IdentOSABI.display .GNU = "GNU") ∧
    (∀ bytes : List Nat, EIdent.from_bytes bytes ≠ .error .InvalidOsAbi) := by
  refine ⟨?_, ⟨rfl, rfl⟩, ⟨rfl, rfl⟩, EIdent.from_bytes_ne_invalidOsAbi⟩
  intro bytes hlen hmagic h4 h5 h6 h7
  exact EIdent.from_bytes_osAbi_error hlen hmagic h4 h5 h6 (decodeOsAbi_reserved h7)

/-- Witness for C4: a valid 16-byte identification block with OS/ABI byte
19 is rejected with `ReservedOsAbi`. -/
theorem os_abi_decoding_witness :
    EIdent.from_bytes
      [0x7f, 0x45, 0x4c, 0x46, 1, 1, 0, 19, 0, 0, 0, 0, 0, 0, 0, 0] =
      .error .ReservedOsAbi :=
  os_abi_decoding.1 _ (by decide) (by decide) (by decide) (by decide)
    (by decide) (by decide)

/-- C5: Machine decoding — value 62 decodes to the tag rendered
"AMD x86-64 architecture" and value 183 to the tag rendered "ARM AARCH64";
every value outside the closed machine enumeration is a hard
`InvalidMachine` error, both at the machine decode itself and through
`ElfHeader.from_bytes`. -/
theorem machine_decoding :
    (decodeMachine 62 = .ok .EmX8664 ∧
      ElfMachine.display .EmX8664 = "AMD x86-64 architecture") ∧
    (decodeMachine 183 = .ok .EmAarch64 ∧
      ElfMachine.display .EmAarch64 = "ARM AARCH64") ∧
    (∀ v : Nat, v ∉ machineCodes → decodeMachine v = .error .InvalidMachine) ∧
    (∀ (bytes : List Nat) (i : EIdent) (t : ElfType), 64 ≤ bytes.length →
      EIdent.from_bytes (bytes.take 16) = .ok i →
      decodeType (u16_le (bytes.getD 16 0) (bytes.getD 17 0)) = .ok t →
      u16_le (bytes.getD 18 0) (bytes.getD 19 0) ∉ machineCodes →
      ElfHeader.from_bytes bytes = .error .InvalidMachine) := by
  refine ⟨⟨rfl, rfl⟩, ⟨rfl, rfl⟩, fun v hv => decodeMachine_not_mem hv, ?_⟩
  intro bytes i t hlen hid ht hm
  unfold ElfHeader.from_bytes
  rw [if_neg (by omega), hid]
  simp only [ht, decodeMachine_not_mem hm]

/-- Witness for C5: the example buffer with its machine field replaced by
the unrecognized value 6 is rejected with `InvalidMachine`. -/
theorem machine_decoding_witness :
    ElfHeader.from_bytes
      [0x7f, 0x45, 0x4c, 0x46, 2, 1, 1, 0, 0, 0, 0, 0, 0, 0, 0, 0,
       2, 0, 6, 0, 1, 0, 0, 0,
       0x00, 0x10, 0x40, 0, 0, 0, 0, 0,
       64, 0, 0, 0, 0, 0, 0, 0,
       0, 0, 0, 0, 0, 0, 0, 0,
       0, 0, 0, 0, 64, 0, 56, 0,
       1, 0, 64, 0, 0, 0, 0, 0] = .error .InvalidMachine :=
  machine_decoding.2.2.2 _ exampleHeader.ident .EtExec (by decide) (by rfl)
    (by rfl) (by decide)

/-- C6: Fixed little-endian decode policy — on every successful decode,
every multi-byte field is the little-endian assembly of its source bytes
(no hypothesis on the data-encoding byte is needed, so the policy holds
even when byte 5 announces big-endian); in particular entry bytes
`[0x78, 0x56, 0x34, 0x12]` put `0x12345678` in the low 32 bits of
`entry`. -/
theorem fixed_little_endian_policy (bytes : List Nat) (h : ElfHeader)
    (hok : ElfHeader.from_bytes bytes = .ok h) :
    (h.entry = u64_le (bytes.getD 24 0) (bytes.getD 25 0) (bytes.getD 26 0)
        (bytes.getD 27 0) (bytes.getD 28 0) (bytes.getD 29 0)
        (bytes.getD 30 0) (bytes.getD 31 0) ∧
      h.phoff = u64_le (bytes.getD 32 0) (bytes.getD 33 0) (bytes.getD 34 0)
        (bytes.getD 35 0) (bytes.getD 36 0) (bytes.getD 37 0)
        (bytes.getD 38 0) (bytes.getD 39 0) ∧
      h.shoff = u64_le (bytes.getD 40 0) (bytes.getD 41 0) (bytes.getD 42 0)
        (bytes.getD 43 0) (bytes.getD 44 0) (bytes.getD 45 0)
        (bytes.getD 46 0) (bytes.getD 47 0) ∧
      h.flags = u32_le (bytes.getD 48 0) (bytes.getD 49 0) (bytes.getD 50 0)
        (bytes.getD 51 0) ∧
      h.ehsize = u16_le (bytes.getD 52 0) (bytes.getD 53 0) ∧
      h.phentsize = u16_le (bytes.getD 54 0) (bytes.getD 55 0) ∧
      h.phnum = u16_le (bytes.getD 56 0) (bytes.getD 57 0) ∧
      h.shentsize = u16_le (bytes.getD 58 0) (bytes.getD 59 0) ∧
      h.shnum = u16_le (bytes.getD 60 0) (bytes.getD 61 0) ∧
      h.shstrndx = u16_le (bytes.getD 62 0) (bytes.getD 63 0)) ∧
    (decodeType (u16_le (bytes.getD 16 0) (bytes.getD 17 0)) = .ok h.e_type ∧
      decodeMachine (u16_le (bytes.getD 18 0) (bytes.getD 19 0)) = .ok h.machine ∧
      decodeElfVersion (u32_le (bytes.getD 20 0) (bytes.getD 21 0)
        (bytes.getD 22 0) (bytes.getD 23 0)) = .ok h.version) ∧
    (bytes.getD 24 0 = 0x78 → bytes.getD 25 0 = 0x56 →
      bytes.getD 26 0 = 0x34 → bytes.getD 27 0 = 0x12 →
      h.entry % 2 ^ 32 = 0x12345678) := by
  obtain ⟨hi, ht, hm, hv, he, hpo, hso, hf, heh, hpe, hpn, hse, hsn, hsx⟩ :=
    ElfHeader.from_bytes_ok_inv hok
  refine ⟨⟨he, hpo, hso, hf, heh, hpe, hpn, hse, hsn, hsx⟩, ⟨ht, hm, hv⟩, ?_⟩
  intro h24 h25 h26 h27
  rw [he, h24, h25, h26, h27]
  simp only [u64_le]
  norm_num
  omega

/-- Witness for C6: `bigEndianTagBuf` carries the big-endian tag 2 at
byte 5, yet its decoded entry point has low 32 bits `0x12345678`. -/
theorem fixed_little_endian_policy_witness :
    bigEndianTagBuf.getD 5 0 = 2 ∧
    bigEndianHeader.entry % 2 ^ 32 = 0x12345678 :=
  ⟨by decide,
   (fixed_little_endian_policy bigEndianTagBuf bigEndianHeader (by rfl)).2.2
     (by decide) (by decide) (by decide) (by decide)⟩

set_option maxRecDepth 100000

/-- C7: Rendered report — for every header the rendered text is the
fixed sequence of captioned fields in order, ending with the
"Section header string table index:" field and nothing after it; on the
specification's end-to-end example buffer the decode succeeds and the
report contains the lines "Machine: AMD x86-64 architecture" and
"Entry point address: 0x401000". -/
theorem rendered_report (h : ElfHeader) :
    (ElfHeader.display h =
      "ELF Identification:\n" ++ "  Magic: " ++ magicHex h.ident.magic ++ "\n" ++
      "  Class: " ++ h.ident.class.display ++ "\n" ++
      "  Data: " ++ h.ident.data.display ++ "\n" ++
      "  Version: " ++ h.ident.version.display ++ "\n" ++
      "  OS/ABI: " ++ h.ident.os_abi.display ++ "\n" ++
      "  ABI Version: " ++ Nat.repr h.ident.abi_version ++
      "\nELF Type: " ++ h.e_type.display ++ "\n" ++
      "Machine: " ++ h.machine.display ++ "\n" ++
      "Version: " ++ h.version.display ++ "\n" ++
      "Entry point address: " ++ hex0x h.entry ++ "\n" ++
      "Start of program headers: " ++ Nat.repr h.phoff ++ " (bytes into file)\n" ++
      "Start of section headers: " ++ Nat.repr h.shoff ++ " (bytes into file)\n" ++
      "Flags: " ++ hex0x h.flags ++ "\n" ++
      "Size of this header: " ++ Nat.repr h.ehsize ++ " (bytes)\n" ++
      "Size of program headers: " ++ Nat.repr h.phentsize ++ " (bytes)\n" ++
      "Number of program headers: " ++ Nat.repr h.phnum ++ "\n" ++
      "Size of section headers: " ++ Nat.repr h.shentsize ++ " (bytes)\n" ++
      "Number of section headers: " ++ Nat.repr h.shnum ++ "\n" ++
      "Section header string table index: " ++ Nat.repr h.shstrndx) ∧
    ElfHeader.from_bytes exampleBuf = .ok exampleHeader ∧
    ElfHeader.display exampleHeader =
      "ELF Identification:\n  Magic: [7f, 45, 4c, 46]\n  Class: 64-bit objects\n  Data: Little-endian\n  Version: Current version\n  OS/ABI: No extensions or unspecified\n  ABI Version: 0\nELF Type: Executable file\nMachine: AMD x86-64 architecture\nVersion: Current version\nEntry point address: 0x401000\nStart of program headers: 64 (bytes into file)\nStart of section headers: 0 (bytes into file)\nFlags: 0x0\nSize of this header: 64 (bytes)\nSize of program headers: 56 (bytes)\nNumber of program headers: 1\nSize of section headers: 64 (bytes)\nNumber of section headers: 0\nSection header string table index: 0" ∧
    "Machine: AMD x86-64 architecture" ∈
      splitLines (ElfHeader.display exampleHeader) ∧
    "Entry point address: 0x401000" ∈
      splitLines (ElfHeader.display exampleHeader) := by
  refine ⟨?_, by rfl, by rfl, by decide, by decide⟩
  simp only [ElfHeader.display, EIdent.display, String.append_assoc]

/-- C8: Class decoding — once the length and magic checks pass, a class
byte outside {1,2} makes `EIdent.from_bytes` return `InvalidClass`;
class byte 1 decodes to the tag rendered exactly "32-bit objects" and
class byte 2 to the tag rendered exactly "64-bit objects". -/
theorem class_decoding :
    (∀ bytes : List Nat, 16 ≤ bytes.length →
      bytes.take 4 = [0x7f, 0x45, 0x4c, 0x46] →
      bytes.getD 4 0 ≠ 1 → bytes.getD 4 0 ≠ 2 →
      EIdent.from_bytes bytes = .error .InvalidClass) ∧
    (decodeClass 1 = .ok .ELFCLASS32 ∧
      IdentClass.display .ELFCLASS32 = "32-bit objects") ∧
    (decodeClass 2 = .ok .ELFCLASS64 ∧
      IdentClass.display .ELFCLASS64 = "64-bit objects") := by
  refine ⟨?_, ⟨rfl, rfl⟩, ⟨rfl, rfl⟩⟩
  intro bytes hlen hmagic h1 h2
  exact EIdent.from_bytes_bad_class hlen hmagic h1 h2

/-- Witness for C8: a correctly sized and magic-tagged buffer with class
byte 3 is rejected with `InvalidClass`. -/
theorem class_decoding_witness :
    EIdent.from_bytes
      [0x7f, 0x45, 0x4c, 0x46, 3, 1, 1, 0, 0, 0, 0, 0, 0, 0, 0, 0] =
      .error .InvalidClass :=
  class_decoding.1 _ (by decide) (by decide) (by decide) (by decide)

/-- C9: Determinism and purity — the decoder is a function of the buffer
alone, so two successful decodes of the same buffer agree field for
field on all fourteen header fields. -/
theorem decode_determinism (bytes : List Nat) (h1 h2 : ElfHeader)
    (e1 : ElfHeader.from_bytes bytes = .ok h1)
    (e2 : ElfHeader.from_bytes bytes = .ok h2) :
    h1.ident = h2.ident ∧ h1.e_type = h2.e_type ∧ h1.machine = h2.machine ∧
    h1.version = h2.version ∧ h1.entry = h2.entry ∧ h1.phoff = h2.phoff ∧
    h1.shoff = h2.shoff ∧ h1.flags = h2.flags ∧ h1.ehsize = h2.ehsize ∧
    h1.phentsize = h2.phentsize ∧ h1.phnum = h2.phnum ∧
    h1.shentsize = h2.shentsize ∧ h1.shnum = h2.shnum ∧
    h1.shstrndx = h2.shstrndx := by
  rw [e1] at e2
  injection e2 with h
  subst h
  exact ⟨rfl, rfl, rfl, rfl, rfl, rfl, rfl, rfl, rfl, rfl, rfl, rfl, rfl, rfl⟩

/-- Witness for C9: two decodes of the example buffer, both yielding
`exampleHeader`, agree on every field. -/
theorem decode_determinism_witness :
    exampleHeader.ident = exampleHeader.ident ∧
    exampleHeader.e_type = exampleHeader.e_type ∧
    exampleHeader.machine = exampleHeader.machine ∧
    exampleHeader.version = exampleHeader.version ∧
    exampleHeader.entry = exampleHeader.entry ∧
    exampleHeader.phoff = exampleHeader.phoff ∧
    exampleHeader.shoff = exampleHeader.shoff ∧
    exampleHeader.flags = exampleHeader.flags ∧
    exampleHeader.ehsize = exampleHeader.ehsize ∧
    exampleHeader.phentsize = exampleHeader.phentsize ∧
    exampleHeader.phnum = exampleHeader.phnum ∧
    exampleHeader.shentsize = exampleHeader.shentsize ∧
    exampleHeader.shnum = exampleHeader.shnum ∧
    exampleHeader.shstrndx = exampleHeader.shstrndx :=
  decode_determinism exampleBuf exampleHeader exampleHeader (by rfl) (by rfl)

/-- C10: Object-type decoding matches exact values only — every 16-bit
value outside {0,1,2,3,4,0xFF00,0xFFFF} is rejected with `InvalidType`
(both at the type decode and through `ElfHeader.from_bytes`); in
particular every value strictly between 0xFF00 and 0xFFFF, such as
0xFF01, is rejected: the processor-specific range is not accepted as a
range. -/
theorem object_type_decoding :
    (∀ v : Nat, v ∉ typeCodes → decodeType v = .error .InvalidType) ∧
    (∀ v : Nat, 0xff00 < v → v < 0xffff → decodeType v = .error .InvalidType) ∧
    (decodeType 0xff01 = .error .InvalidType) ∧
    (∀ (bytes : List Nat) (i : EIdent), 64 ≤ bytes.length →
      EIdent.from_bytes (bytes.take 16) = .ok i →
      u16_le (bytes.getD 16 0) (bytes.getD 17 0) ∉ typeCodes →
      ElfHeader.from_bytes bytes = .error .InvalidType) := by
  have hrange : ∀ v : Nat, 0xff00 < v → v < 0xffff → v ∉ typeCodes := by
    intro v a b hv
    simp [typeCodes] at hv
    omega
  refine ⟨fun v hv => decodeType_not_mem hv,
    fun v a b => decodeType_not_mem (hrange v a b), by rfl, ?_⟩
  intro bytes i hlen hid ht
  unfold ElfHeader.from_bytes
  rw [if_neg (by omega), hid]
  simp only [decodeType_not_mem ht]

/-- Witness for C10: the example buffer with its type field replaced by
0xFF01 (bytes 16–17 = `01 FF`) is rejected with `InvalidType`. -/
theorem object_type_decoding_witness :
    ElfHeader.from_bytes
      [0x7f, 0x45, 0x4c, 0x46, 2, 1, 1, 0, 0, 0, 0, 0, 0, 0, 0, 0,
       0x01, 0xff, 62, 0, 1, 0, 0, 0,
       0x00, 0x10, 0x40, 0, 0, 0, 0, 0,
       64, 0, 0, 0, 0, 0, 0, 0,
       0, 0, 0, 0, 0, 0, 0, 0,
       0, 0, 0, 0, 64, 0, 56, 0,
       1, 0, 64, 0, 0, 0, 0, 0] = .error .InvalidType :=
  object_type_decoding.2.2.2 _ exampleHeader.ident (by decide) (by rfl)
    (by decide)
